import Mathlib

/-!
# Verification of the ISS-Tracker ephemeris pipeline

A shallow embedding of `iss_tracker.py`: the custom day-of-year epoch parser
(`parse_date`, i.e. `datetime.strptime` with format `%Y-%jT%H:%M:%S.%fZ`),
the ISO serialization (`datetime.isoformat`) and re-parser
(`datetime.fromisoformat`), the feed parser (`download_and_parse_iss_data`),
the read-through cache (`fetch_iss_data`), the epoch lookups
(`find_epoch_by_date` and the inline `min(..., key=...)` of `/now`), the
kinematics and geodesy formulas (`calculate_speed`, `calculate_location`),
and the `/epochs` routes.

Numeric semantics: Python floats are modelled over exact rationals (feed
values) and reals (trigonometric formulas); machine times are modelled as
integer seconds/microseconds.  Strings are modelled as `List Char`.
-/

/-! ## Digits and fixed-width decimal fields -/

/-- One decimal digit character, as produced by Python's zero-padded decimal
formatting (only ever applied to values below 10 after the `% 10`). -/
def pyDigitChar (d : Nat) : Char := Char.ofNat (48 + d % 10)

/-- Test for `'0'..'9'`, matching Python's ASCII digit matching in `strptime`
regexes and `fromisoformat`. -/
def isDigitChar (c : Char) : Bool := 48 ≤ c.toNat && c.toNat ≤ 57

/-- Numeric value of a digit character. -/
def digitVal (c : Char) : Nat := c.toNat - 48

/-- Zero-padded fixed-width decimal rendering, as in `'%04d' % n` for values
in range (Python prints more digits for out-of-range values, which the
`datetime` field invariants rule out). -/
def padNat : Nat → Nat → List Char
  | 0, _ => []
  | k + 1, n => pyDigitChar (n / 10 ^ k) :: padNat k (n % 10 ^ k)

/-- Consume exactly `k` digit characters, accumulating their value;
the building block of the fixed-width fields of `strptime`/`fromisoformat`. -/
def parseExactDigits : Nat → Nat → List Char → Option (Nat × List Char)
  | 0, acc, l => some (acc, l)
  | _ + 1, _, [] => none
  | k + 1, acc, c :: cs =>
    if isDigitChar c then parseExactDigits k (acc * 10 + digitVal c) cs else none

/-- Consume one expected literal character. -/
def expectChar (c : Char) : List Char → Option (List Char)
  | [] => none
  | x :: xs => if x = c then some xs else none

/-- Greedily consume up to `fuel` digit characters, returning the value, the
number of digits consumed, and the rest (models `\d{1,3}`-style fields). -/
def takeDigits : Nat → Nat → Nat → List Char → Nat × Nat × List Char
  | 0, acc, len, l => (acc, len, l)
  | _ + 1, acc, len, [] => (acc, len, [])
  | fuel + 1, acc, len, c :: cs =>
    if isDigitChar c then takeDigits fuel (acc * 10 + digitVal c) (len + 1) cs
    else (acc, len, c :: cs)

/-- Two-digit `strptime` field with a value bound, e.g. `%H` with regex
`2[0-3]|[0-1]\d|\d`: two digits are consumed when their value is within
`bound`, otherwise a single digit is consumed. -/
def twoDigitField (bound : Nat) : List Char → Option (Nat × List Char)
  | [] => none
  | [c] => if isDigitChar c then some (digitVal c, []) else none
  | c1 :: c2 :: rest =>
    if isDigitChar c1 then
      if isDigitChar c2 ∧ digitVal c1 * 10 + digitVal c2 ≤ bound then
        some (digitVal c1 * 10 + digitVal c2, rest)
      else some (digitVal c1, c2 :: rest)
    else none

/-! ## Gregorian calendar arithmetic (as in the Python `datetime` module) -/

/-- Gregorian leap-year test. -/
def isLeap (y : Nat) : Bool := y % 4 == 0 && (y % 100 != 0 || y % 400 == 0)

/-- Number of days in a month (`leap` is the year's leap flag). -/
def daysInMonth (leap : Bool) (m : Nat) : Nat :=
  if m = 2 then (if leap then 29 else 28)
  else if m = 4 ∨ m = 6 ∨ m = 9 ∨ m = 11 then 30 else 31

/-- Number of days in a year. -/
def daysInYear (leap : Bool) : Nat := if leap then 366 else 365

/-- Walk the months of a year, converting a day-of-year into a
month/day-of-month pair; `fuel` bounds the walk at month 12. -/
def findMonth (leap : Bool) : Nat → Nat → Nat → Nat × Nat
  | m, j, 0 => (m, j)
  | m, j, fuel + 1 =>
    if j ≤ daysInMonth leap m then (m, j)
    else findMonth leap (m + 1) (j - daysInMonth leap m) fuel

/-- Convert a year and a day-of-year ordinal (1-based) into a calendar date,
as `date.fromordinal` does inside `strptime`: day 366 of a common year rolls
over into January 1 of the next year. -/
def dateFromYearDay (y j : Nat) : Nat × Nat × Nat :=
  if j ≤ daysInYear (isLeap y) then
    let md := findMonth (isLeap y) 1 j 11
    (y, md.1, md.2)
  else (y + 1, 1, j - daysInYear (isLeap y))

/-- Days in all months strictly before month `m`. -/
def daysBeforeMonth (leap : Bool) : Nat → Nat
  | 0 => 0
  | 1 => 0
  | m + 2 => daysBeforeMonth leap (m + 1) + daysInMonth leap (m + 1)

/-- Days in all years strictly before year `y` (proleptic Gregorian,
`date.toordinal`-style). -/
def daysBeforeYear (y : Nat) : Nat :=
  365 * (y - 1) + (y - 1) / 4 - (y - 1) / 100 + (y - 1) / 400

/-! ## The `datetime` value and its ISO serialization -/

/-- A Python `datetime.datetime` value (naive, no timezone — exactly what
`iss_tracker.py` manipulates). -/
structure PyDateTime where
  year : Nat
  month : Nat
  day : Nat
  hour : Nat
  minute : Nat
  second : Nat
  microsecond : Nat
deriving DecidableEq, Repr

/-- The field invariants enforced by the `datetime.datetime` constructor
(`MINYEAR = 1`, `MAXYEAR = 9999`, calendar-valid month/day, `second ≤ 59`,
`microsecond ≤ 999999`). -/
def pythonDateValid (d : PyDateTime) : Bool :=
  1 ≤ d.year && d.year ≤ 9999 &&
  1 ≤ d.month && d.month ≤ 12 &&
  1 ≤ d.day && d.day ≤ daysInMonth (isLeap d.year) d.month &&
  d.hour ≤ 23 && d.minute ≤ 59 && d.second ≤ 59 && d.microsecond ≤ 999999

/-- The fractional-seconds suffix of `datetime.isoformat`: omitted entirely
when the microsecond component is zero. -/
def isoFracSuffix (micro : Nat) : List Char :=
  if micro = 0 then [] else '.' :: padNat 6 micro

/-- Serialization `datetime.isoformat()` on a naive datetime: `YYYY-MM-DDTHH:MM:SS` plus
`.ffffff` only when `microsecond ≠ 0`; no timezone designator is emitted. -/
def isoformat (d : PyDateTime) : List Char :=
  padNat 4 d.year ++ '-' ::
    (padNat 2 d.month ++ '-' ::
      (padNat 2 d.day ++ 'T' ::
        (padNat 2 d.hour ++ ':' ::
          (padNat 2 d.minute ++ ':' ::
            (padNat 2 d.second ++ isoFracSuffix d.microsecond)))))

/-- The fractional part of `fromisoformat`: the remaining characters must all
be digits, between one and six of them, and are right-padded to microseconds. -/
def parseFracPart (l : List Char) : Option Nat :=
  if 1 ≤ l.length ∧ l.length ≤ 6 ∧ l.all isDigitChar then
    match parseExactDigits l.length 0 l with
    | some (v, []) => some (v * 10 ^ (6 - l.length))
    | _ => none
  else none

/-- The time part of `datetime.fromisoformat`, after the date and the single
separator character: `HH`, `HH:MM`, `HH:MM:SS` or `HH:MM:SS.f{1,6}` (the
colon-separated forms used by this application; no timezone suffix). -/
def parseTimePart (y mo dy : Nat) (l : List Char) : Option PyDateTime :=
  match parseExactDigits 2 0 l with
  | none => none
  | some (h, r1) =>
    match r1 with
    | [] => some ⟨y, mo, dy, h, 0, 0, 0⟩
    | ':' :: r2 =>
      match parseExactDigits 2 0 r2 with
      | none => none
      | some (mi, r3) =>
        match r3 with
        | [] => some ⟨y, mo, dy, h, mi, 0, 0⟩
        | ':' :: r4 =>
          match parseExactDigits 2 0 r4 with
          | none => none
          | some (s, r5) =>
            match r5 with
            | [] => some ⟨y, mo, dy, h, mi, s, 0⟩
            | '.' :: r6 =>
              match parseFracPart r6 with
              | some micro => some ⟨y, mo, dy, h, mi, s, micro⟩
              | none => none
            | _ => none
        | _ => none
    | _ => none

/-- Parser `datetime.fromisoformat`: parses `YYYY-MM-DD`, then optionally a single
separator character (any character, per CPython) followed by a time part, and
validates the result exactly as the `datetime` constructor does. -/
def fromisoformat (l : List Char) : Option PyDateTime :=
  match parseExactDigits 4 0 l with
  | none => none
  | some (y, r1) =>
    match expectChar '-' r1 with
    | none => none
    | some r2 =>
      match parseExactDigits 2 0 r2 with
      | none => none
      | some (mo, r3) =>
        match expectChar '-' r3 with
        | none => none
        | some r4 =>
          match parseExactDigits 2 0 r4 with
          | none => none
          | some (dy, r5) =>
            match r5 with
            | [] =>
              let d : PyDateTime := ⟨y, mo, dy, 0, 0, 0, 0⟩
              if pythonDateValid d then some d else none
            | _ :: timePart =>
              match parseTimePart y mo dy timePart with
              | none => none
              | some d => if pythonDateValid d then some d else none

/-- Function `parse_date` of `iss_tracker.py`: `datetime.strptime` with
format `%Y-%jT%H:%M:%S.%fZ`.  `%Y` is four digits, `%j` one to three digits with
value 1–366 (the `strptime` regex excludes 0 and values above 366), `%H`/`%M`
are bounded two-digit fields, `%S` admits leap seconds 60/61 which the
`datetime` constructor then rejects, `%f` is one to six digits right-padded
to microseconds; the whole string must be consumed.  The day-of-year is
converted through `date.fromordinal`, and the final `datetime` construction
enforces the field invariants (including the 4-digit year staying ≤ 9999). -/
def parse_date (l : List Char) : Option PyDateTime :=
  match parseExactDigits 4 0 l with
  | none => none
  | some (y, r1) =>
    match expectChar '-' r1 with
    | none => none
    | some r2 =>
      match takeDigits 3 0 0 r2 with
      | (j, jlen, r3) =>
        if jlen = 0 ∨ j = 0 ∨ 366 < j then none
        else
          match expectChar 'T' r3 with
          | none => none
          | some r4 =>
            match twoDigitField 23 r4 with
            | none => none
            | some (h, r5) =>
              match expectChar ':' r5 with
              | none => none
              | some r6 =>
                match twoDigitField 59 r6 with
                | none => none
                | some (mi, r7) =>
                  match expectChar ':' r7 with
                  | none => none
                  | some r8 =>
                    match twoDigitField 61 r8 with
                    | none => none
                    | some (s, r9) =>
                      match expectChar '.' r9 with
                      | none => none
                      | some r10 =>
                        match takeDigits 6 0 0 r10 with
                        | (f, flen, r11) =>
                          if flen = 0 then none
                          else
                            match expectChar 'Z' r11 with
                            | none => none
                            | some r12 =>
                              if r12 = [] then
                                let ymd := dateFromYearDay y j
                                let d : PyDateTime :=
                                  ⟨ymd.1, ymd.2.1, ymd.2.2, h, mi, s,
                                    f * 10 ^ (6 - flen)⟩
                                if pythonDateValid d then some d else none
                              else none

/-! ## The feed model (`download_and_parse_iss_data`) -/

/-- A value produced by `xmltodict` for a `COMMENT` entry: a Python string,
`None` (an empty XML element), or some other structure (e.g. a dict). -/
inductive PyVal where
  | str (s : List Char)
  | pynone
  | other
deriving DecidableEq, Repr

/-- Projection in the style of `isinstance(comment, str)`: the string payload of an
entry when it is one. -/
def PyVal.asString : PyVal → Option (List Char)
  | .str s => some s
  | _ => none

/-- One raw `stateVector` XML entry, after `xmltodict` and `float('#text')`
conversion of the six numeric children (floats modelled as exact rationals);
`EPOCH` is the raw day-of-year string. -/
structure RawStateVector where
  EPOCH : List Char
  X : ℚ
  Y : ℚ
  Z : ℚ
  X_DOT : ℚ
  Y_DOT : ℚ
  Z_DOT : ℚ
deriving DecidableEq, Repr

/-- The `ndm.oem.body.segment.data` subtree: an optional `COMMENT` entry list
and the `stateVector` list. -/
structure SegmentData where
  COMMENT : Option (List PyVal)
  stateVector : List RawStateVector
deriving DecidableEq, Repr

/-- The parsed XML document handed to the extraction code (the HTTP layer is
an external collaborator; `header` and `metadata` are opaque verbatim
payloads). -/
structure OemDocument where
  header : List Char
  metadata : List Char
  segment : SegmentData
deriving DecidableEq, Repr

/-- One normalized state vector as stored in the snapshot: `EPOCH` is
`parse_date(raw).isoformat()`, the six numeric fields are copied. -/
structure StateVector where
  EPOCH : List Char
  X : ℚ
  Y : ℚ
  Z : ℚ
  X_DOT : ℚ
  Y_DOT : ℚ
  Z_DOT : ℚ
deriving DecidableEq, Repr

/-- The normalized result of one successful feed parse (`iss_data` dict). -/
structure IssData where
  header : List Char
  metadata : List Char
  state_vectors : List StateVector
  comments : List (List Char)
deriving DecidableEq, Repr

/-- The comment extraction of lines 68–73: when the `COMMENT` key is present,
keep exactly the entries for which `comment is not None and
isinstance(comment, str)` holds (note: an empty string passes this test);
when absent, log a warning and leave the comments empty. -/
def extractComments : Option (List PyVal) → List (List Char)
  | none => []
  | some entries => entries.filterMap PyVal.asString

/-- One iteration of the `stateVector` loop (lines 76–88):
`parse_date(state_vector["EPOCH"]).isoformat()` plus the six numeric fields;
a date conversion error aborts the whole parse. -/
def parseStateVector (raw : RawStateVector) : Option StateVector :=
  (parse_date raw.EPOCH).map fun d =>
    ⟨isoformat d, raw.X, raw.Y, raw.Z, raw.X_DOT, raw.Y_DOT, raw.Z_DOT⟩

/-- The whole `stateVector` loop: any per-record failure is a total parse
failure (the exception propagates out of `download_and_parse_iss_data`). -/
def parseStateVectors : List RawStateVector → Option (List StateVector)
  | [] => some []
  | r :: rs =>
    match parseStateVector r, parseStateVectors rs with
    | some v, some vs => some (v :: vs)
    | _, _ => none

/-- Function `download_and_parse_iss_data` (lines 41–96) on an already-downloaded,
already-`xmltodict`-parsed document: extracts header and metadata verbatim,
the filtered comments, and the normalized state vectors; any conversion
error makes the whole parse fail. -/
def download_and_parse_iss_data (doc : OemDocument) : Option IssData :=
  match parseStateVectors doc.segment.stateVector with
  | none => none
  | some vs =>
    some ⟨doc.header, doc.metadata, vs, extractComments doc.segment.COMMENT⟩

/-! ## The cache gateway (`fetch_iss_data`) -/

/-- One row of the `ISSData` SQLAlchemy model: a JSON `data` payload and a
`timestamp` (UTC seconds, set by the column default `datetime.utcnow` at
insertion time). -/
structure ISSData where
  data : IssData
  timestamp : ℤ
deriving DecidableEq, Repr

/-- Function `fetch_iss_data` (lines 98–123).  The query
`ISSData.query.filter(ISSData.timestamp > one_hour_ago).first()` issues an
unordered `SELECT ... LIMIT 1`, which SQLite serves in rowid (= insertion)
order: it returns the first-stored row whose timestamp is strictly newer
than one hour ago.  On a hit that row's payload is returned unchanged; on a
miss the freshly parsed feed (the `fresh` parameter — the result of
`download_and_parse_iss_data`) is appended with `timestamp = now` and
returned. -/
def fetch_iss_data (now : ℤ) (store : List ISSData) (fresh : IssData) :
    IssData × List ISSData :=
  match store.find? (fun row => decide (now - 3600 < row.timestamp)) with
  | some row => (row.data, store)
  | none => (fresh, store ++ [⟨fresh, now⟩])

/-- Modelled from the spec: "the most recent CachedSnapshot with `stored_at`
> (now − 1 hour)" — among the fresh rows, the one with the greatest
stored-at timestamp.  Spec-side definition, for comparison with
`fetch_iss_data`. -/
def specMostRecentFresh (now : ℤ) (store : List ISSData) : Option ISSData :=
  (store.filter (fun row => decide (now - 3600 < row.timestamp))).foldl
    (fun acc row =>
      match acc with
      | none => some row
      | some b => if b.timestamp ≤ row.timestamp then some row else some b)
    none

/-- Sample snapshot payloads used in the cache-gateway instances. -/
def dataA : IssData := ⟨[], [], [], ["A".data]⟩

/-- Second, distinct sample snapshot payload. -/
def dataB : IssData := ⟨[], [], [], ["B".data]⟩

/-! ## The nearest-epoch selection of `/now` -/

/-- Python's `min(iterable, key=...)`: scan left to right, replacing the
current best only on a strictly smaller key, so the first minimum wins ties;
raises on an empty iterable (`none`). -/
def pythonMinBy {α : Type} (key : α → ℤ) : List α → Option α
  | [] => none
  | x :: xs => some (xs.foldl (fun b a => if key a < key b then a else b) x)

/-- Day count of the date part of a datetime, in the style of
`date.toordinal`. -/
def toOrdinalDT (d : PyDateTime) : Nat :=
  daysBeforeYear d.year + daysBeforeMonth (isLeap d.year) d.month + d.day

/-- A datetime as an absolute count of microseconds, so that differences of
datetimes (Python `timedelta`s) compare exactly as the integers do. -/
def tsOfDT (d : PyDateTime) : ℤ :=
  (((toOrdinalDT d * 24 + d.hour) * 3600 + d.minute * 60 + d.second) * 1000000
    + d.microsecond : ℕ)

/-- The sort key of `/now` (line 387):
`abs(datetime.fromisoformat(x["EPOCH"]) - now)`, in microseconds.  On an
unparsable epoch the source raises (surfacing as a 500); the model's dummy
fallback is dead code under the characterization theorem's hypothesis that
every stored epoch parses. -/
def epochKey (now : ℤ) (sv : StateVector) : ℤ :=
  |tsOfDT ((fromisoformat sv.EPOCH).getD ⟨1, 1, 1, 0, 0, 0, 0⟩) - now|

/-- The nearest-epoch selection of the `/now` route
(`get_current_epoch_data`, line 387): `min(state_vectors, key=lambda x:
abs(datetime.fromisoformat(x["EPOCH"]) - now))`. -/
def get_current_epoch_data (now : ℤ) (svs : List StateVector) :
    Option StateVector :=
  pythonMinBy (epochKey now) svs

/-- The five-element sequence of the claim: epochs at hours 12–16 on
2024-02-22 (stored in their serialized form, which carries no `'Z'`). -/
def nowSample : List StateVector :=
  [⟨"2024-02-22T12:00:00".data, 1, 0, 0, 0, 0, 0⟩,
   ⟨"2024-02-22T13:00:00".data, 2, 0, 0, 0, 0, 0⟩,
   ⟨"2024-02-22T14:00:00".data, 3, 0, 0, 0, 0, 0⟩,
   ⟨"2024-02-22T15:00:00".data, 4, 0, 0, 0, 0, 0⟩,
   ⟨"2024-02-22T16:00:00".data, 5, 0, 0, 0, 0, 0⟩]

/-! ## Epoch lookup and the `/epochs/...` routes -/

/-- A JSON response body: a single state vector, a state-vector list, or an
error object `{"error": msg}`. -/
inductive RouteBody where
  | vec (v : StateVector)
  | vecs (vs : List StateVector)
  | err (msg : List Char)
deriving DecidableEq, Repr

/-- Function `find_epoch_by_date` (lines 139–153): linear scan returning the first
vector whose `EPOCH` field equals the target, else `None`.  The routes pass
the raw epoch *string*, so the comparison is exact string equality against
the stored serialized epochs. -/
def find_epoch_by_date : List StateVector → List Char → Option StateVector
  | [], _ => none
  | v :: vs, epoch_date =>
    if v.EPOCH = epoch_date then some v else find_epoch_by_date vs epoch_date

/-- The `/epochs/<epoch>` route (`get_specific_epoch_data`, lines 300–321):
a malformed epoch (fromisoformat raises) is a 400; a missed lookup is a 404
with error `Epoch not found`; a found vector is returned as-is (a found
state-vector dict is a non-empty dict, hence truthy).  The snapshot's
state-vector list is the parameter. -/
def get_specific_epoch_data (epoch : List Char) (svs : List StateVector) :
    Nat × RouteBody :=
  match fromisoformat epoch with
  | none =>
    (400, .err
      ("Invalid date format. Please use the ISO format: YYYY-MM-DDTHH:MM:SS".data))
  | some _ =>
    match find_epoch_by_date svs epoch with
    | some v => (200, .vec v)
    | none => (404, .err ("Epoch not found".data))

/-- Value of a digit string, most significant first. -/
def digitsVal (l : List Char) : Nat := l.foldl (fun a c => a * 10 + digitVal c) 0

/-- Python `int(str)`: an optional sign followed by at least one digit (the
whitespace/underscore forms are never produced by the route's query-string
inputs and are not modelled). -/
def pythonInt (l : List Char) : Option ℤ :=
  match l with
  | '-' :: rest =>
    if rest ≠ [] ∧ rest.all isDigitChar then some (-(digitsVal rest : ℤ))
    else none
  | '+' :: rest =>
    if rest ≠ [] ∧ rest.all isDigitChar then some (digitsVal rest : ℤ)
    else none
  | _ => if l ≠ [] ∧ l.all isDigitChar then some (digitsVal l : ℤ) else none

/-- The inner `parse_int` helper of the `/epochs` route (lines 246–270):
`request.args.get(name, default)` yields the query value or the default;
a missing effective value short-circuits to `None`; otherwise the string must
contain no `'.'`, convert via `int()`, and satisfy the sign policy.  All
`ValueError` message texts are abstracted to one fixed marker — the route
only turns them into a 400. -/
def parse_int (value dflt : Option (List Char))
    (allow_negative must_be_positive : Bool) :
    Except (List Char) (Option ℤ) :=
  match (match value with | some s => some s | none => dflt) with
  | none => .ok none
  | some s =>
    if s.contains '.' then .error ("invalid parameter".data)
    else
      match pythonInt s with
      | none => .error ("invalid parameter".data)
      | some n =>
        if allow_negative = false ∧ n < 0 then
          .error ("invalid parameter".data)
        else if must_be_positive = true ∧ n ≤ 0 then
          .error ("invalid parameter".data)
        else .ok (some n)

/-- The `/epochs` route (`get_epochs_data`, lines 243–298): `limit` is parsed
with `must_be_positive` and default `None`; `offset` with default `'0'` and
`allow_negative=False`; a parse failure is a 400; `offset >= len(dataset)`
raises a `ValueError` (400); the slice `dataset[offset:offset+limit]` is
applied only when `limit` was supplied (for `0 ≤ offset < len` and
`limit ≥ 1` the Python slice is drop-then-take).  The snapshot's state
vectors are the `dataset` parameter. -/
def get_epochs_data (limitQ offsetQ : Option (List Char))
    (dataset : List StateVector) : Nat × RouteBody :=
  match parse_int limitQ none false true with
  | .error m => (400, .err m)
  | .ok limit =>
    match parse_int offsetQ (some ("0".data)) false false with
    | .error m => (400, .err m)
    | .ok offsetOpt =>
      let offset : ℤ := offsetOpt.getD 0
      if (dataset.length : ℤ) ≤ offset then
        (400, .err ("Offset exceeds the size of the dataset".data))
      else
        match limit with
        | none => (200, .vecs dataset)
        | some lim => (200, .vecs ((dataset.drop offset.toNat).take lim.toNat))

/-! ## Kinematics and geodesy (`calculate_speed`, `calculate_location`) -/

/-- Function `math.atan2(y, x)`: the argument of the complex point `(x, y)`, in
`(-pi, pi]` (Python's convention away from signed zeros, which exact reals
do not have). -/
noncomputable def atan2 (y x : ℝ) : ℝ := Complex.arg ⟨x, y⟩

/-- Function `math.degrees`. -/
noncomputable def pyDegrees (r : ℝ) : ℝ := r * 180 / Real.pi

/-- Python's float `%`: `a - b * floor(a / b)`, with the sign of the
divisor. -/
noncomputable def pymod (a b : ℝ) : ℝ := a - b * ⌊a / b⌋

/-- Line 22 of the source (`6371`, km). -/
def MEAN_EARTH_RADIUS : ℝ := 6371

/-- Function `calculate_speed` (lines 125–137): `np.sqrt(x_dot**2 + y_dot**2 +
z_dot**2)`. -/
noncomputable def calculate_speed (x_dot y_dot z_dot : ℝ) : ℝ :=
  Real.sqrt (x_dot ^ 2 + y_dot ^ 2 + z_dot ^ 2)

/-- Function `calculate_location` (lines 155–178) on a stored state vector:
`datetime.fromisoformat(epoch_data["EPOCH"])` supplies the hour and minute
(raising on an unparsable epoch — `none`); then
`lat = degrees(atan2(z, sqrt(x² + y²)))`,
`lon = degrees(atan2(y, x)) - ((hrs-12)+(mins/60))*(360/24) + 19` wrapped by
`lon = (lon + 180) % 360 - 180`, and
`alt = sqrt(x² + y² + z²) - MEAN_EARTH_RADIUS`. -/
noncomputable def calculate_location (sv : StateVector) :
    Option (ℝ × ℝ × ℝ) :=
  (fromisoformat sv.EPOCH).map fun t =>
    (pyDegrees (atan2 (sv.Z : ℝ) (Real.sqrt ((sv.X : ℝ) ^ 2 + (sv.Y : ℝ) ^ 2))),
     pymod (pyDegrees (atan2 (sv.Y : ℝ) (sv.X : ℝ)) -
        (((t.hour : ℝ) - 12) + (t.minute : ℝ) / 60) * (360 / 24) + 19 + 180)
        360 - 180,
     Real.sqrt ((sv.X : ℝ) ^ 2 + (sv.Y : ℝ) ^ 2 + (sv.Z : ℝ) ^ 2) -
       MEAN_EARTH_RADIUS)

/-- Modelled from the spec (§4.4): `latitude = degrees(atan2(z, sqrt(x² +
y²)))`; spec-side definition for the refinement comparison. -/
noncomputable def specLatitude (x y z : ℝ) : ℝ :=
  pyDegrees (atan2 z (Real.sqrt (x ^ 2 + y ^ 2)))

/-- Modelled from the spec (§4.4): the pre-normalization longitude
`degrees(atan2(y, x)) − ((hour − 12) + minute/60) × (360/24) + 19`. -/
noncomputable def specRawLongitude (x y : ℝ) (hour minute : ℕ) : ℝ :=
  pyDegrees (atan2 y x) -
    (((hour : ℝ) - 12) + (minute : ℝ) / 60) * (360 / 24) + 19

/-- Modelled from the spec (§4.4): `altitude = sqrt(x² + y² + z²) −
6371.0`. -/
noncomputable def specAltitude (x y z : ℝ) : ℝ :=
  Real.sqrt (x ^ 2 + y ^ 2 + z ^ 2) - 6371

/-! ## Verified properties -/

theorem isDigitChar_pyDigitChar (d : Nat) : isDigitChar (pyDigitChar d) = true := by
  have h : d % 10 < 10 := Nat.mod_lt _ (by omega)
  unfold pyDigitChar
  interval_cases h : d % 10 <;> decide

theorem digitVal_pyDigitChar (d : Nat) : digitVal (pyDigitChar d) = d % 10 := by
  have h : d % 10 < 10 := Nat.mod_lt _ (by omega)
  unfold pyDigitChar digitVal
  interval_cases h : d % 10 <;> decide

theorem padNat_length (k n : Nat) : (padNat k n).length = k := by
  induction k generalizing n with
  | zero => rfl
  | succ k ih => simp [padNat, ih]

theorem mem_padNat_isDigit {k n : Nat} {c : Char} (h : c ∈ padNat k n) :
    isDigitChar c = true := by
  induction k generalizing n with
  | zero => simp [padNat] at h
  | succ k ih =>
    simp only [padNat, List.mem_cons] at h
    rcases h with h | h
    · exact h ▸ isDigitChar_pyDigitChar _
    · exact ih h

theorem parseExactDigits_padNat (k : Nat) :
    ∀ (acc n : Nat) (rest : List Char),
      parseExactDigits k acc (padNat k n ++ rest) =
        some (acc * 10 ^ k + n % 10 ^ k, rest) := by
  induction k with
  | zero => intro acc n rest; simp [padNat, parseExactDigits, Nat.mod_one]
  | succ k ih =>
    intro acc n rest
    have hmod : n % 10 ^ (k + 1) = n / 10 ^ k % 10 * 10 ^ k + n % 10 ^ k := by
      rw [pow_succ, Nat.mod_mul]
      ring
    simp only [padNat, List.cons_append, parseExactDigits,
      isDigitChar_pyDigitChar, if_true, digitVal_pyDigitChar, List.append_eq]
    rw [ih, Nat.mod_mod_of_dvd n (dvd_refl (10 ^ k))]
    simp only [Option.some.injEq, Prod.mk.injEq, and_true]
    rw [hmod]
    ring

theorem parseExactDigits_padNat_lt {k n : Nat} (rest : List Char)
    (h : n < 10 ^ k) :
    parseExactDigits k 0 (padNat k n ++ rest) = some (n, rest) := by
  rw [parseExactDigits_padNat, Nat.mod_eq_of_lt h, Nat.zero_mul, Nat.zero_add]

theorem expectChar_cons (c : Char) (l : List Char) :
    expectChar c (c :: l) = some l := by
  simp [expectChar]

theorem daysInMonth_le (leap : Bool) (m : Nat) : daysInMonth leap m ≤ 31 := by
  unfold daysInMonth
  split_ifs <;> omega

theorem parseExactDigits_padNat_nil {k n : Nat} (h : n < 10 ^ k) :
    parseExactDigits k 0 (padNat k n) = some (n, []) := by
  have := parseExactDigits_padNat_lt (k := k) (n := n) [] h
  simpa using this

theorem parseFracPart_padNat6 {mc : Nat} (h : mc ≤ 999999) :
    parseFracPart (padNat 6 mc) = some mc := by
  have hlen : (padNat 6 mc).length = 6 := padNat_length 6 mc
  have hall : (padNat 6 mc).all isDigitChar = true := by
    rw [List.all_eq_true]
    intro c hc
    exact mem_padNat_isDigit hc
  unfold parseFracPart
  rw [hlen, if_pos ⟨by omega, by omega, hall⟩,
    parseExactDigits_padNat_nil (show mc < 10 ^ 6 by omega)]
  norm_num

theorem fromisoformat_isoformat {d : PyDateTime}
    (hv : pythonDateValid d = true) : fromisoformat (isoformat d) = some d := by
  obtain ⟨y, mo, dy, h, mi, s, mc⟩ := d
  have hb := hv
  simp only [pythonDateValid, Bool.and_eq_true, decide_eq_true_eq] at hb
  obtain ⟨⟨⟨⟨⟨⟨⟨⟨⟨hy1, hy2⟩, hmo1⟩, hmo2⟩, hdy1⟩, hdy2⟩, hh⟩, hmi⟩, hs⟩, hmc⟩ := hb
  have hdy31 : dy ≤ 31 := le_trans hdy2 (daysInMonth_le _ _)
  have e1 : ∀ rest, parseExactDigits 4 0 (padNat 4 y ++ rest) = some (y, rest) :=
    fun rest => parseExactDigits_padNat_lt rest (by omega)
  have e2 : ∀ rest, parseExactDigits 2 0 (padNat 2 mo ++ rest) = some (mo, rest) :=
    fun rest => parseExactDigits_padNat_lt rest (by omega)
  have e3 : ∀ rest, parseExactDigits 2 0 (padNat 2 dy ++ rest) = some (dy, rest) :=
    fun rest => parseExactDigits_padNat_lt rest (by omega)
  have e4 : ∀ rest, parseExactDigits 2 0 (padNat 2 h ++ rest) = some (h, rest) :=
    fun rest => parseExactDigits_padNat_lt rest (by omega)
  have e5 : ∀ rest, parseExactDigits 2 0 (padNat 2 mi ++ rest) = some (mi, rest) :=
    fun rest => parseExactDigits_padNat_lt rest (by omega)
  have e6 : ∀ rest, parseExactDigits 2 0 (padNat 2 s ++ rest) = some (s, rest) :=
    fun rest => parseExactDigits_padNat_lt rest (by omega)
  have e6n : parseExactDigits 2 0 (padNat 2 s) = some (s, []) :=
    parseExactDigits_padNat_nil (by omega)
  by_cases hmc0 : mc = 0
  · subst hmc0
    simp only [isoformat, isoFracSuffix, eq_self_iff_true, if_true, if_pos rfl,
      List.append_nil, fromisoformat, e1, expectChar_cons, e2, e3,
      parseTimePart, e4, e5, e6n]
    simp [hv]
  · simp only [isoformat, isoFracSuffix, if_neg hmc0, fromisoformat, e1,
      expectChar_cons, e2, e3, parseTimePart, e4, e5, e6,
      parseFracPart_padNat6 hmc]
    simp [hv]

theorem parse_date_valid {l : List Char} {d : PyDateTime}
    (h : parse_date l = some d) : pythonDateValid d = true := by
  unfold parse_date at h
  repeat' split at h
  all_goals try simp_all
  all_goals (obtain ⟨h1, h2⟩ := h; exact h2 ▸ h1)

/-- C3: the round trip as stated fails: `parse_date` is the claim's
`parse_epoch` and `datetime.isoformat` its `serialize_epoch`, but the
serialized form is a month-day ISO string without the `.%fZ` suffix, which
the day-of-year `strptime` format cannot re-parse.  At the valid epoch string
`2024-047T12:00:00.000000Z` the inner parse succeeds, yet re-parsing its
serialization raises (`none`), so the composed value differs from
`parse_epoch(s)`. -/
theorem epoch_roundtrip_counterexample :
    parse_date ("2024-047T12:00:00.000000Z".data) =
      some ⟨2024, 2, 16, 12, 0, 0, 0⟩ ∧
    (parse_date ("2024-047T12:00:00.000000Z".data)).bind
      (fun d => parse_date (isoformat d)) = none ∧
    (parse_date ("2024-047T12:00:00.000000Z".data)).bind
      (fun d => parse_date (isoformat d)) ≠
      parse_date ("2024-047T12:00:00.000000Z".data) := by
  refine ⟨by decide, by decide, ?_⟩
  decide

/-- C3 (amended): for every valid day-of-year epoch string, re-parsing the
canonical serialization with the ISO parser actually used by the program
(`datetime.fromisoformat`) recovers the same point in time:
`fromisoformat(isoformat(parse_date s)) = parse_date s`. -/
theorem epoch_roundtrip_via_fromisoformat (s : List Char) (d : PyDateTime)
    (h : parse_date s = some d) :
    fromisoformat (isoformat d) = parse_date s := by
  rw [h]
  exact fromisoformat_isoformat (parse_date_valid h)

/-- Witness for the amended C3 round trip at the concrete epoch string
`2024-047T12:00:00.000000Z`. -/
theorem epoch_roundtrip_witness :
    parse_date ("2024-047T12:00:00.000000Z".data) =
      some ⟨2024, 2, 16, 12, 0, 0, 0⟩ ∧
    fromisoformat (isoformat ⟨2024, 2, 16, 12, 0, 0, 0⟩) =
      parse_date ("2024-047T12:00:00.000000Z".data) :=
  ⟨by decide, epoch_roundtrip_via_fromisoformat _ _ (by decide)⟩

theorem mem_isoformat {d : PyDateTime} {c : Char} (h : c ∈ isoformat d) :
    isDigitChar c = true ∨ c = '-' ∨ c = 'T' ∨ c = ':' ∨
      (c = '.' ∧ d.microsecond ≠ 0) := by
  unfold isoformat at h
  rcases List.mem_append.mp h with h | h
  · exact Or.inl (mem_padNat_isDigit h)
  rcases List.mem_cons.mp h with h | h
  · exact Or.inr (Or.inl h)
  rcases List.mem_append.mp h with h | h
  · exact Or.inl (mem_padNat_isDigit h)
  rcases List.mem_cons.mp h with h | h
  · exact Or.inr (Or.inl h)
  rcases List.mem_append.mp h with h | h
  · exact Or.inl (mem_padNat_isDigit h)
  rcases List.mem_cons.mp h with h | h
  · exact Or.inr (Or.inr (Or.inl h))
  rcases List.mem_append.mp h with h | h
  · exact Or.inl (mem_padNat_isDigit h)
  rcases List.mem_cons.mp h with h | h
  · exact Or.inr (Or.inr (Or.inr (Or.inl h)))
  rcases List.mem_append.mp h with h | h
  · exact Or.inl (mem_padNat_isDigit h)
  rcases List.mem_cons.mp h with h | h
  · exact Or.inr (Or.inr (Or.inr (Or.inl h)))
  rcases List.mem_append.mp h with h | h
  · exact Or.inl (mem_padNat_isDigit h)
  unfold isoFracSuffix at h
  by_cases hm : d.microsecond = 0
  · rw [if_pos hm] at h
    simp at h
  · rw [if_neg hm] at h
    rcases List.mem_cons.mp h with h | h
    · exact Or.inr (Or.inr (Or.inr (Or.inr ⟨h, hm⟩)))
    · exact Or.inl (mem_padNat_isDigit h)

theorem isoformat_no_Z (d : PyDateTime) : 'Z' ∉ isoformat d := by
  intro h
  rcases mem_isoformat h with h | h | h | h | ⟨h, -⟩ <;> exact absurd h (by decide)

theorem dot_mem_isoformat_iff (d : PyDateTime) :
    '.' ∈ isoformat d ↔ d.microsecond ≠ 0 := by
  constructor
  · intro h
    rcases mem_isoformat h with h | h | h | h | ⟨-, h⟩ <;>
      first
      | exact absurd h (by decide)
      | exact h
  · intro h
    unfold isoformat isoFracSuffix
    rw [if_neg h]
    simp

theorem parseStateVectors_mem {rs : List RawStateVector}
    {vs : List StateVector} (h : parseStateVectors rs = some vs)
    {v : StateVector} (hv : v ∈ vs) :
    ∃ r ∈ rs, parseStateVector r = some v := by
  induction rs generalizing vs with
  | nil =>
    simp only [parseStateVectors, Option.some.injEq] at h
    subst h
    simp at hv
  | cons r rs ih =>
    simp only [parseStateVectors] at h
    split at h
    · next v0 vs0 hv0 hvs0 =>
      cases h
      rcases List.mem_cons.mp hv with rfl | hv
      · exact ⟨r, List.mem_cons_self .., hv0⟩
      · obtain ⟨r', hr', hp⟩ := ih hvs0 hv
        exact ⟨r', List.mem_cons_of_mem _ hr', hp⟩
    · exact absurd h (by simp)

/-- C5: the claim fails: stored `EPOCH` strings come from `isoformat()` on a
naive datetime, which emits no `'Z'` UTC designator and omits the fractional
part entirely when the microsecond component is zero.  For the concrete feed
record `2024-047T12:00:00.000000Z` the stored string is
`2024-02-16T12:00:00`: it contains neither a `'Z'` nor any sub-second
digits. -/
theorem stored_epoch_counterexample :
    download_and_parse_iss_data
        ⟨[], [], ⟨none, [⟨"2024-047T12:00:00.000000Z".data, 1, 2, 3, 4, 5, 6⟩]⟩⟩ =
      some ⟨[], [], [⟨"2024-02-16T12:00:00".data, 1, 2, 3, 4, 5, 6⟩], []⟩ ∧
    'Z' ∉ ("2024-02-16T12:00:00".data : List Char) ∧
    '.' ∉ ("2024-02-16T12:00:00".data : List Char) := by
  refine ⟨by decide, by decide, by decide⟩

/-- C5 (amended): every `EPOCH` string stored in a successfully parsed
snapshot is the naive ISO-8601 serialization of its parsed epoch: it carries
no UTC designator `'Z'`, and it carries sub-second digits (a `'.'`) exactly
when the parsed microsecond component is nonzero. -/
theorem stored_epoch_no_utc_designator
    (doc : OemDocument) (data : IssData)
    (h : download_and_parse_iss_data doc = some data) :
    ∀ sv ∈ data.state_vectors,
      'Z' ∉ sv.EPOCH ∧
      ∃ d : PyDateTime, sv.EPOCH = isoformat d ∧
        ('.' ∈ sv.EPOCH ↔ d.microsecond ≠ 0) := by
  intro sv hsv
  unfold download_and_parse_iss_data at h
  split at h
  · exact absurd h (by simp)
  · next vs hvs =>
    cases h
    obtain ⟨r, -, hr⟩ := parseStateVectors_mem hvs hsv
    unfold parseStateVector at hr
    cases hp : parse_date r.EPOCH with
    | none => rw [hp] at hr; exact absurd hr (by simp)
    | some d =>
      rw [hp] at hr
      simp only [Option.map_some', Option.some.injEq] at hr
      have hE : sv.EPOCH = isoformat d := by rw [← hr]
      refine ⟨hE ▸ isoformat_no_Z d, d, hE, hE ▸ dot_mem_isoformat_iff d⟩

/-- Witness for the amended C5 at the concrete feed document with record
`2024-047T12:00:00.000000Z`, whose stored epoch is `2024-02-16T12:00:00`. -/
theorem stored_epoch_witness :
    'Z' ∉ ("2024-02-16T12:00:00".data : List Char) ∧
    ∃ d : PyDateTime, ("2024-02-16T12:00:00".data : List Char) = isoformat d ∧
      ('.' ∈ ("2024-02-16T12:00:00".data : List Char) ↔ d.microsecond ≠ 0) :=
  stored_epoch_no_utc_designator
    ⟨[], [], ⟨none, [⟨"2024-047T12:00:00.000000Z".data, 1, 2, 3, 4, 5, 6⟩]⟩⟩
    ⟨[], [], [⟨"2024-02-16T12:00:00".data, 1, 2, 3, 4, 5, 6⟩], []⟩
    (by decide) ⟨"2024-02-16T12:00:00".data, 1, 2, 3, 4, 5, 6⟩ (by decide)

/-- C6: the claim fails: the comment filter keeps every entry that *is a
string*, including empty strings — `comment is not None and
isinstance(comment, str)` does not test non-emptiness.  On a segment whose
`COMMENT` list is `["", "Units are km", None]` the parsed comments are
`["", "Units are km"]`, not the claimed `["Units are km"]`. -/
theorem comments_counterexample :
    download_and_parse_iss_data
        ⟨[], [],
          ⟨some [PyVal.str [], PyVal.str ("Units are km".data), PyVal.pynone],
            [⟨"2024-047T12:00:00.000000Z".data, 1, 2, 3, 4, 5, 6⟩]⟩⟩ =
      some ⟨[], [], [⟨"2024-02-16T12:00:00".data, 1, 2, 3, 4, 5, 6⟩],
        [[], "Units are km".data]⟩ ∧
    ([[], "Units are km".data] : List (List Char)) ≠ ["Units are km".data] := by
  refine ⟨by decide, by decide⟩

/-- C6 (amended): for every successfully parsed feed, the snapshot's
comments are exactly the subsequence of the segment's `COMMENT` entries that
are strings — `None` and non-string entries are dropped silently, order
preserved, and *empty strings are kept*; moreover removing the `COMMENT`
section never makes the parse fail: it only empties the comments. -/
theorem comments_keep_all_strings :
    (∀ (doc : OemDocument) (data : IssData),
      download_and_parse_iss_data doc = some data →
      data.comments = (doc.segment.COMMENT.getD []).filterMap PyVal.asString) ∧
    (∀ doc : OemDocument,
      download_and_parse_iss_data
          ⟨doc.header, doc.metadata, ⟨none, doc.segment.stateVector⟩⟩ =
        (download_and_parse_iss_data doc).map
          (fun data => ⟨data.header, data.metadata, data.state_vectors, []⟩)) := by
  constructor
  · intro doc data h
    unfold download_and_parse_iss_data at h
    split at h
    · exact absurd h (by simp)
    · cases h
      cases hC : doc.segment.COMMENT <;> simp [extractComments, hC]
  · intro doc
    unfold download_and_parse_iss_data
    cases hvs : parseStateVectors doc.segment.stateVector <;>
      simp [extractComments, hvs]

/-- Witness for the amended C6 at the concrete segment with comment entries
`["", "Units are km", None]`. -/
theorem comments_keep_all_strings_witness :
    (⟨[], [], [⟨"2024-02-16T12:00:00".data, 1, 2, 3, 4, 5, 6⟩],
        [[], "Units are km".data]⟩ : IssData).comments =
      ((some [PyVal.str [], PyVal.str ("Units are km".data), PyVal.pynone]
          : Option (List PyVal)).getD []).filterMap PyVal.asString :=
  comments_keep_all_strings.1
    ⟨[], [],
      ⟨some [PyVal.str [], PyVal.str ("Units are km".data), PyVal.pynone],
        [⟨"2024-047T12:00:00.000000Z".data, 1, 2, 3, 4, 5, 6⟩]⟩⟩
    ⟨[], [], [⟨"2024-02-16T12:00:00".data, 1, 2, 3, 4, 5, 6⟩],
        [[], "Units are km".data]⟩ (by decide)

theorem find?_decomp {α : Type} (p : α → Bool) {l : List α} {r : α}
    (h : l.find? p = some r) :
    ∃ pre post, l = pre ++ r :: post ∧ (∀ q ∈ pre, p q = false) ∧
      p r = true := by
  induction l with
  | nil => simp at h
  | cons a t ih =>
    rw [List.find?] at h
    cases hpa : p a with
    | true =>
      rw [hpa] at h
      simp only [Option.some.injEq] at h
      subst h
      exact ⟨[], t, rfl, by simp, hpa⟩
    | false =>
      rw [hpa] at h
      simp only at h
      obtain ⟨pre, post, hl, hpre, hr⟩ := ih h
      exact ⟨a :: pre, post, by rw [hl]; rfl,
        by intro q hq; rcases List.mem_cons.mp hq with rfl | hq
           · exact hpa
           · exact hpre q hq, hr⟩

/-- C1: the claim fails on a store holding two fresh rows (a state the spec
itself admits, since concurrent cache misses may each persist a row): the
unordered `.first()` returns the first-stored fresh row, not the most recent
one.  With rows `(dataA, t=100)` and `(dataB, t=200)` and `now = 300`, the
code returns `dataA` while the most recent fresh row holds `dataB`. -/
theorem fetch_iss_data_counterexample :
    (fetch_iss_data 300 [⟨dataA, 100⟩, ⟨dataB, 200⟩] dataA).1 = dataA ∧
    specMostRecentFresh 300 [⟨dataA, 100⟩, ⟨dataB, 200⟩] = some ⟨dataB, 200⟩ ∧
    dataA ≠ dataB := by
  refine ⟨by decide, by decide, by decide⟩

/-- C1 (amended): on every call, if some stored row is strictly newer than
(now − 1 hour) the gateway returns — unchanged, without re-validation — the
snapshot of the *first-stored* such row (every earlier row being stale), and
leaves the store untouched; otherwise it returns the freshly parsed feed and
persists it as a new row with `stored_at = now`. -/
theorem fetch_iss_data_cache (now : ℤ) (store : List ISSData)
    (fresh : IssData) :
    ((∃ r ∈ store, now - 3600 < r.timestamp) →
      ∃ pre post r, store = pre ++ r :: post ∧
        (∀ q ∈ pre, ¬(now - 3600 < q.timestamp)) ∧
        now - 3600 < r.timestamp ∧
        fetch_iss_data now store fresh = (r.data, store)) ∧
    ((∀ r ∈ store, r.timestamp ≤ now - 3600) →
      fetch_iss_data now store fresh = (fresh, store ++ [⟨fresh, now⟩])) := by
  constructor
  · rintro ⟨r0, hr0, hfresh⟩
    cases hfind : store.find? (fun row => decide (now - 3600 < row.timestamp)) with
    | none =>
      rw [List.find?_eq_none] at hfind
      exact absurd (by simpa using hfind r0 hr0) (by simpa using hfresh)
    | some r =>
      obtain ⟨pre, post, hl, hpre, hr⟩ := find?_decomp _ hfind
      refine ⟨pre, post, r, hl, ?_, by simpa using hr, ?_⟩
      · intro q hq
        simpa using hpre q hq
      · unfold fetch_iss_data
        rw [hfind]
  · intro hall
    have hnone : store.find? (fun row => decide (now - 3600 < row.timestamp)) = none :=
      List.find?_eq_none.mpr (fun x hx => by simpa using not_lt.mpr (hall x hx))
    unfold fetch_iss_data
    rw [hnone]

/-- Witness for the amended C1: a cache hit on the two-row store and a cache
miss on the empty store. -/
theorem fetch_iss_data_cache_witness :
    (∃ pre post r,
        ([⟨dataA, 100⟩, ⟨dataB, 200⟩] : List ISSData) = pre ++ r :: post ∧
        (∀ q ∈ pre, ¬((300 : ℤ) - 3600 < q.timestamp)) ∧
        (300 : ℤ) - 3600 < r.timestamp ∧
        fetch_iss_data 300 [⟨dataA, 100⟩, ⟨dataB, 200⟩] dataA =
          (r.data, [⟨dataA, 100⟩, ⟨dataB, 200⟩])) ∧
    fetch_iss_data 300 [] dataA = (dataA, [⟨dataA, 300⟩]) :=
  ⟨(fetch_iss_data_cache 300 [⟨dataA, 100⟩, ⟨dataB, 200⟩] dataA).1
      ⟨⟨dataA, 100⟩, by decide, by decide⟩,
    (fetch_iss_data_cache 300 [] dataA).2 (by decide)⟩

theorem find?_congr_mem {α : Type} {p q : α → Bool} :
    ∀ {l : List α}, (∀ a ∈ l, p a = q a) → l.find? p = l.find? q := by
  intro l
  induction l with
  | nil => intro _; rfl
  | cons a t ih =>
    intro h
    rw [List.find?, List.find?, h a (List.mem_cons_self ..),
      ih fun x hx => h x (List.mem_cons_of_mem _ hx)]

theorem exists_min_key {α : Type} (key : α → ℤ) :
    ∀ (l : List α), l ≠ [] → ∃ m ∈ l, ∀ c ∈ l, key m ≤ key c := by
  intro l
  induction l with
  | nil => intro h; exact absurd rfl h
  | cons a t ih =>
    intro _
    rcases t.eq_nil_or_concat.imp_left id with rfl | -
    · exact ⟨a, List.mem_cons_self .., by simp⟩
    all_goals
    rcases eq_or_ne t [] with rfl | ht
    · exact ⟨a, List.mem_cons_self .., by simp⟩
    · obtain ⟨m, hm, hmin⟩ := ih ht
      rcases le_total (key a) (key m) with hle | hle
      · refine ⟨a, List.mem_cons_self .., ?_⟩
        intro c hc
        rcases List.mem_cons.mp hc with rfl | hc
        · exact le_refl _
        · exact le_trans hle (hmin c hc)
      · refine ⟨m, List.mem_cons_of_mem _ hm, ?_⟩
        intro c hc
        rcases List.mem_cons.mp hc with rfl | hc
        · exact hle
        · exact hmin c hc

theorem foldl_min_eq_find? {α : Type} (key : α → ℤ) :
    ∀ (xs : List α) (b : α),
      xs.foldl (fun b a => if key a < key b then a else b) b =
        (xs.find? (fun a =>
          decide (key a < key b ∧ ∀ c ∈ xs, key a ≤ key c))).getD b := by
  intro xs
  induction xs with
  | nil => intro b; rfl
  | cons a t ih =>
    intro b
    rw [List.foldl_cons]
    by_cases hab : key a < key b
    · rw [if_pos hab, ih]
      by_cases hmin : ∀ c ∈ t, key a ≤ key c
      · have h1 : t.find? (fun x =>
            decide (key x < key a ∧ ∀ c ∈ t, key x ≤ key c)) = none :=
          List.find?_eq_none.mpr fun x hx => by
            simp only [decide_eq_true_eq, not_and]
            intro hlt
            exact absurd hlt (not_lt.mpr (hmin x hx))
        have h2 : (a :: t).find? (fun x =>
            decide (key x < key b ∧ ∀ c ∈ a :: t, key x ≤ key c)) = some a :=
          List.find?_cons_of_pos _ (by
            simp only [decide_eq_true_eq]
            exact ⟨hab, by
              intro c hc
              rcases List.mem_cons.mp hc with rfl | hc
              · exact le_refl _
              · exact hmin c hc⟩)
        rw [h1, h2]
        rfl
      · push_neg at hmin
        obtain ⟨d, hd, hda⟩ := hmin
        have hne : t ≠ [] := by rintro rfl; exact absurd hd (by simp)
        obtain ⟨m, hm, hmmin⟩ := exists_min_key key t hne
        have hma : key m < key a := lt_of_le_of_lt (hmmin d hd) hda
        have hcongr : t.find? (fun x =>
            decide (key x < key a ∧ ∀ c ∈ t, key x ≤ key c)) =
          t.find? (fun x =>
            decide (key x < key b ∧ ∀ c ∈ a :: t, key x ≤ key c)) := by
          apply find?_congr_mem
          intro x hx
          apply decide_eq_decide.mpr
          constructor
          · rintro ⟨hxa, hxmin⟩
            refine ⟨lt_trans hxa hab, ?_⟩
            intro c hc
            rcases List.mem_cons.mp hc with rfl | hc
            · exact le_of_lt hxa
            · exact hxmin c hc
          · rintro ⟨hxb, hxmin⟩
            have hxmint : ∀ c ∈ t, key x ≤ key c :=
              fun c hc => hxmin c (List.mem_cons_of_mem _ hc)
            exact ⟨lt_of_le_of_lt (hxmint d hd) hda, hxmint⟩
        have hsome : ∃ r, t.find? (fun x =>
            decide (key x < key a ∧ ∀ c ∈ t, key x ≤ key c)) = some r := by
          cases hf : t.find? (fun x =>
              decide (key x < key a ∧ ∀ c ∈ t, key x ≤ key c)) with
          | none =>
            rw [List.find?_eq_none] at hf
            exact absurd (decide_eq_true ⟨hma, hmmin⟩) (hf m hm)
          | some r => exact ⟨r, rfl⟩
        obtain ⟨r, hr⟩ := hsome
        have hfull : (a :: t).find? (fun x =>
            decide (key x < key b ∧ ∀ c ∈ a :: t, key x ≤ key c)) =
          t.find? (fun x =>
            decide (key x < key b ∧ ∀ c ∈ a :: t, key x ≤ key c)) :=
          List.find?_cons_of_neg _ (by
            simp only [decide_eq_true_eq, not_and]
            intro _ hall
            exact absurd (hall d (List.mem_cons_of_mem _ hd)) (not_le.mpr hda))
        rw [hfull, ← hcongr, hr]
        rfl
    · rw [if_neg hab, ih]
      have hba : key b ≤ key a := not_lt.mp hab
      have hfull : (a :: t).find? (fun x =>
          decide (key x < key b ∧ ∀ c ∈ a :: t, key x ≤ key c)) =
        t.find? (fun x =>
          decide (key x < key b ∧ ∀ c ∈ a :: t, key x ≤ key c)) :=
        List.find?_cons_of_neg _ (by
          simp only [decide_eq_true_eq, not_and]
          intro hlt
          exact absurd hlt (not_lt.mpr hba))
      have hcongr : t.find? (fun x =>
          decide (key x < key b ∧ ∀ c ∈ t, key x ≤ key c)) =
        t.find? (fun x =>
          decide (key x < key b ∧ ∀ c ∈ a :: t, key x ≤ key c)) := by
        apply find?_congr_mem
        intro x hx
        apply decide_eq_decide.mpr
        constructor
        · rintro ⟨hxb, hxmin⟩
          refine ⟨hxb, ?_⟩
          intro c hc
          rcases List.mem_cons.mp hc with rfl | hc
          · exact le_trans (le_of_lt hxb) hba
          · exact hxmin c hc
        · rintro ⟨hxb, hxmin⟩
          exact ⟨hxb, fun c hc => hxmin c (List.mem_cons_of_mem _ hc)⟩
      rw [hfull, ← hcongr]

theorem pythonMinBy_eq_find?_first_min {α : Type} (key : α → ℤ)
    (l : List α) (h : l ≠ []) :
    pythonMinBy key l =
      l.find? (fun a => decide (∀ c ∈ l, key a ≤ key c)) := by
  cases l with
  | nil => exact absurd rfl h
  | cons x xs =>
    simp only [pythonMinBy]
    rw [foldl_min_eq_find? key xs x]
    by_cases hx : ∀ c ∈ xs, key x ≤ key c
    · have h1 : xs.find? (fun a =>
          decide (key a < key x ∧ ∀ c ∈ xs, key a ≤ key c)) = none :=
        List.find?_eq_none.mpr fun a ha => by
          simp only [decide_eq_true_eq, not_and]
          intro hlt
          exact absurd hlt (not_lt.mpr (hx a ha))
      have h2 : (x :: xs).find? (fun a =>
          decide (∀ c ∈ x :: xs, key a ≤ key c)) = some x :=
        List.find?_cons_of_pos _ (by
          simp only [decide_eq_true_eq]
          intro c hc
          rcases List.mem_cons.mp hc with rfl | hc
          · exact le_refl _
          · exact hx c hc)
      rw [h1, h2]
      rfl
    · push_neg at hx
      obtain ⟨d, hd, hdx⟩ := hx
      have hne : xs ≠ [] := by rintro rfl; exact absurd hd (by simp)
      obtain ⟨m, hm, hmmin⟩ := exists_min_key key xs hne
      have hfull : (x :: xs).find? (fun a =>
          decide (∀ c ∈ x :: xs, key a ≤ key c)) =
        xs.find? (fun a => decide (∀ c ∈ x :: xs, key a ≤ key c)) :=
        List.find?_cons_of_neg _ (by
          simp only [decide_eq_true_eq, not_forall]
          exact ⟨d, List.mem_cons_of_mem _ hd, not_le.mpr hdx⟩)
      have hcongr : xs.find? (fun a =>
          decide (key a < key x ∧ ∀ c ∈ xs, key a ≤ key c)) =
        xs.find? (fun a => decide (∀ c ∈ x :: xs, key a ≤ key c)) := by
        apply find?_congr_mem
        intro a ha
        apply decide_eq_decide.mpr
        constructor
        · rintro ⟨hax, hamin⟩
          intro c hc
          rcases List.mem_cons.mp hc with rfl | hc
          · exact le_of_lt hax
          · exact hamin c hc
        · intro hall
          have hamin : ∀ c ∈ xs, key a ≤ key c :=
            fun c hc => hall c (List.mem_cons_of_mem _ hc)
          exact ⟨lt_of_le_of_lt (hamin d hd) hdx, hamin⟩
      have hsome : ∃ r, xs.find? (fun a =>
          decide (key a < key x ∧ ∀ c ∈ xs, key a ≤ key c)) = some r := by
        cases hf : xs.find? (fun a =>
            decide (key a < key x ∧ ∀ c ∈ xs, key a ≤ key c)) with
        | none =>
          rw [List.find?_eq_none] at hf
          exact absurd (decide_eq_true ⟨lt_of_le_of_lt (hmmin d hd) hdx, hmmin⟩)
            (hf m hm)
        | some r => exact ⟨r, rfl⟩
      obtain ⟨r, hr⟩ := hsome
      rw [hfull, ← hcongr, hr]
      rfl

/-- C4 (confirmed): for every non-empty state-vector list whose epochs all
parse, the `/now` selection returns the first-encountered vector whose epoch
minimizes the absolute time distance to the reference time; and on the
five-element sequence with epochs at hours 12–16 on 2024-02-22 with
reference time 2024-02-22T13:30:00Z it returns the 13:00:00 vector (the
first of the two candidates 30 minutes away). -/
theorem now_nearest_first_min :
    (∀ (now : ℤ) (svs : List StateVector), svs ≠ [] →
      (∀ sv ∈ svs, (fromisoformat sv.EPOCH).isSome = true) →
      get_current_epoch_data now svs =
        svs.find? (fun a =>
          decide (∀ b ∈ svs, epochKey now a ≤ epochKey now b))) ∧
    get_current_epoch_data (tsOfDT ⟨2024, 2, 22, 13, 30, 0, 0⟩) nowSample =
      some ⟨"2024-02-22T13:00:00".data, 2, 0, 0, 0, 0, 0⟩ :=
  ⟨fun now svs h _ => pythonMinBy_eq_find?_first_min (epochKey now) svs h,
    by decide⟩

/-- Witness for C4's general part at the concrete five-element sequence and
reference time 2024-02-22T13:30:00Z. -/
theorem now_nearest_first_min_witness :
    get_current_epoch_data (tsOfDT ⟨2024, 2, 22, 13, 30, 0, 0⟩) nowSample =
      nowSample.find? (fun a =>
        decide (∀ b ∈ nowSample,
          epochKey (tsOfDT ⟨2024, 2, 22, 13, 30, 0, 0⟩) a ≤
            epochKey (tsOfDT ⟨2024, 2, 22, 13, 30, 0, 0⟩) b)) :=
  now_nearest_first_min.1 (tsOfDT ⟨2024, 2, 22, 13, 30, 0, 0⟩) nowSample
    (by decide) (by decide)

/-- C7 (confirmed): `find_epoch_by_date` is the first-match linear scan
(`List.find?` on exact epoch equality) and returns the `None` sentinel when
no vector matches; the `/epochs/{epoch}` route renders the sentinel as a 404
whose error field is `Epoch not found`, and a malformed epoch string as a
400. -/
theorem find_epoch_lookup_and_route :
    (∀ (svs : List StateVector) (target : List Char),
      find_epoch_by_date svs target =
        svs.find? (fun v => decide (v.EPOCH = target))) ∧
    (∀ (svs : List StateVector) (target : List Char),
      (∀ v ∈ svs, v.EPOCH ≠ target) → find_epoch_by_date svs target = none) ∧
    (∀ (svs : List StateVector) (target : List Char) (t : PyDateTime),
      fromisoformat target = some t →
      (∀ v ∈ svs, v.EPOCH ≠ target) →
      get_specific_epoch_data target svs =
        (404, .err ("Epoch not found".data))) ∧
    (∀ (svs : List StateVector) (target : List Char),
      fromisoformat target = none →
      get_specific_epoch_data target svs =
        (400, .err
          ("Invalid date format. Please use the ISO format: YYYY-MM-DDTHH:MM:SS".data))) := by
  have hfind : ∀ (svs : List StateVector) (target : List Char),
      find_epoch_by_date svs target =
        svs.find? (fun v => decide (v.EPOCH = target)) := by
    intro svs target
    induction svs with
    | nil => rfl
    | cons v vs ih =>
      by_cases h : v.EPOCH = target
      · simp [find_epoch_by_date, List.find?, h]
      · simp only [find_epoch_by_date, if_neg h, ih, List.find?,
          decide_eq_false h]
  have hnone : ∀ (svs : List StateVector) (target : List Char),
      (∀ v ∈ svs, v.EPOCH ≠ target) → find_epoch_by_date svs target = none := by
    intro svs target h
    rw [hfind]
    exact List.find?_eq_none.mpr fun v hv => by
      simpa using h v hv
  refine ⟨hfind, hnone, ?_, ?_⟩
  · intro svs target t hparse hmiss
    unfold get_specific_epoch_data
    rw [hparse, hnone svs target hmiss]
  · intro svs target hparse
    unfold get_specific_epoch_data
    rw [hparse]

/-- Witness for C7: on the sample dataset, the malformed epoch `abc` gives a
400 and the well-formed but absent epoch `2022-01-01T00:00:00` gives a 404
with `Epoch not found`. -/
theorem find_epoch_lookup_and_route_witness :
    get_specific_epoch_data ("abc".data) nowSample =
      (400, .err
        ("Invalid date format. Please use the ISO format: YYYY-MM-DDTHH:MM:SS".data)) ∧
    get_specific_epoch_data ("2022-01-01T00:00:00".data) nowSample =
      (404, .err ("Epoch not found".data)) :=
  ⟨find_epoch_lookup_and_route.2.2.2 nowSample ("abc".data) (by decide),
    find_epoch_lookup_and_route.2.2.1 nowSample ("2022-01-01T00:00:00".data)
      ⟨2022, 1, 1, 0, 0, 0, 0⟩ (by decide) (by decide)⟩

/-- C10 (confirmed): when `limit` is absent, a supplied valid `offset` is
still validated — `offset` at least the dataset length yields a 400 — but is
never applied: any valid in-range offset returns the full unsliced
state-vector list. -/
theorem epochs_route_offset_unapplied
    (dataset : List StateVector) (offsetQ : Option (List Char)) (k : ℤ)
    (hk : parse_int offsetQ (some ("0".data)) false false = .ok (some k)) :
    ((dataset.length : ℤ) ≤ k →
      get_epochs_data none offsetQ dataset =
        (400, .err ("Offset exceeds the size of the dataset".data))) ∧
    (k < dataset.length →
      get_epochs_data none offsetQ dataset = (200, .vecs dataset)) := by
  have hlimit : parse_int none none false true =
      (.ok none : Except (List Char) (Option ℤ)) := rfl
  constructor
  · intro hle
    unfold get_epochs_data
    rw [hlimit, hk]
    simp only [Option.getD_some]
    rw [if_pos hle]
  · intro hlt
    unfold get_epochs_data
    rw [hlimit, hk]
    simp only [Option.getD_some]
    rw [if_neg (not_le.mpr hlt)]

/-- Witness for C10 on the five-element sample dataset: offset 2 returns the
full list; offset 7 is validated and rejected with a 400. -/
theorem epochs_route_offset_unapplied_witness :
    get_epochs_data none (some ("2".data)) nowSample = (200, .vecs nowSample) ∧
    get_epochs_data none (some ("7".data)) nowSample =
      (400, .err ("Offset exceeds the size of the dataset".data)) :=
  ⟨(epochs_route_offset_unapplied nowSample (some ("2".data)) 2
      (by rfl)).2 (by decide),
    (epochs_route_offset_unapplied nowSample (some ("7".data)) 7
      (by rfl)).1 (by decide)⟩

theorem pymod_bounds (a : ℝ) {b : ℝ} (hb : 0 < b) :
    0 ≤ pymod a b ∧ pymod a b < b := by
  unfold pymod
  have hb' : b ≠ 0 := ne_of_gt hb
  have h1 : a - b * ⌊a / b⌋ = b * (a / b - ⌊a / b⌋) := by
    field_simp
  have hf1 : (0 : ℝ) ≤ a / b - ⌊a / b⌋ := by
    have := Int.floor_le (a / b)
    linarith
  have hf2 : a / b - ⌊a / b⌋ < 1 := by
    have := Int.lt_floor_add_one (a / b)
    linarith
  rw [h1]
  constructor
  · exact mul_nonneg hb.le hf1
  · have h2 : b * (a / b - ⌊a / b⌋) < b * 1 := mul_lt_mul_of_pos_left hf2 hb
    simpa using h2

theorem atan2_zero_one : atan2 0 1 = 0 := by
  unfold atan2
  have h : (⟨1, 0⟩ : ℂ) = 1 := by
    apply Complex.ext <;> simp
  rw [h, Complex.arg_one]

theorem atan2_zero_neg_one : atan2 0 (-1) = Real.pi := by
  unfold atan2
  have h : (⟨-1, 0⟩ : ℂ) = -1 := by
    apply Complex.ext <;> simp
  rw [h, Complex.arg_neg_one]

theorem atan2_pos_zero {z : ℝ} (hz : 0 < z) : atan2 z 0 = Real.pi / 2 := by
  unfold atan2
  exact Complex.arg_eq_pi_div_two_iff.mpr ⟨rfl, hz⟩

theorem atan2_zero_nonneg {r : ℝ} (hr : 0 ≤ r) : atan2 0 r = 0 := by
  unfold atan2
  have h : (⟨r, 0⟩ : ℂ) = (r : ℂ) := by
    apply Complex.ext <;> simp
  rw [h]
  exact Complex.arg_ofReal_of_nonneg hr

theorem pyDegrees_pi : pyDegrees Real.pi = 180 := by
  unfold pyDegrees
  rw [mul_comm, mul_div_assoc, div_self Real.pi_ne_zero, mul_one]

theorem pyDegrees_pi_div_two : pyDegrees (Real.pi / 2) = 90 := by
  unfold pyDegrees
  field_simp
  ring

theorem pyDegrees_zero : pyDegrees 0 = 0 := by
  unfold pyDegrees
  ring

/-- Evaluation of `calculate_location` at the state vector
`(x, y, z) = (-1, 0, 0)` with epoch `2024-02-22T13:16:00`: the raw longitude
is exactly `180 - 19 + 19 = 180`, and the wrap maps it to exactly `-180`. -/
theorem calculate_location_neg_x :
    calculate_location ⟨"2024-02-22T13:16:00".data, -1, 0, 0, 0, 0, 0⟩ =
      some (0, -180, -6370) := by
  unfold calculate_location
  rw [show fromisoformat ("2024-02-22T13:16:00".data) =
      some ⟨2024, 2, 22, 13, 16, 0, 0⟩ from by decide]
  simp only [Option.map_some', Option.some.injEq, Prod.mk.injEq]
  have e1 : (((-1 : ℚ) : ℝ)) = -1 := by norm_num
  have e0 : (((0 : ℚ) : ℝ)) = 0 := by norm_num
  refine ⟨?_, ?_, ?_⟩
  · rw [e1, e0, show ((-1 : ℝ) ^ 2 + (0 : ℝ) ^ 2) = 1 by norm_num,
      Real.sqrt_one, atan2_zero_one, pyDegrees_zero]
  · rw [e1, e0, atan2_zero_neg_one, pyDegrees_pi]
    have harg : (180 : ℝ) -
        ((((13 : ℕ) : ℝ) - 12) + ((16 : ℕ) : ℝ) / 60) * (360 / 24) + 19 + 180 =
        360 := by
      push_cast
      norm_num
    rw [harg]
    unfold pymod
    rw [show (360 : ℝ) / 360 = 1 by norm_num, Int.floor_one]
    norm_num
  · rw [e1, e0, show ((-1 : ℝ) ^ 2 + (0 : ℝ) ^ 2 + (0 : ℝ) ^ 2) = 1 by norm_num,
      Real.sqrt_one, MEAN_EARTH_RADIUS]
    norm_num

/-- C2: the claim fails: the wrap `(lon + 180) % 360 - 180` lands in the
half-open interval `[-180, 180)`, not `(-180, 180]`.  At the state vector
`(-1, 0, 0)` with epoch hour 13 and minute 16 the returned longitude is
exactly `-180`, which the claimed interval excludes. -/
theorem longitude_range_counterexample :
    calculate_location ⟨"2024-02-22T13:16:00".data, -1, 0, 0, 0, 0, 0⟩ =
      some (0, -180, -6370) ∧
    ¬((-180 : ℝ) < -180 ∧ (-180 : ℝ) ≤ 180) :=
  ⟨calculate_location_neg_x, by norm_num⟩

/-- C2 (amended): for every state vector, the longitude returned by
`calculate_location` lies in the half-open interval `[-180, +180)`: at least
`-180` and strictly below `+180`. -/
theorem longitude_range (sv : StateVector) (lat lon alt : ℝ)
    (h : calculate_location sv = some (lat, lon, alt)) :
    -180 ≤ lon ∧ lon < 180 := by
  unfold calculate_location at h
  cases hp : fromisoformat sv.EPOCH with
  | none => rw [hp] at h; exact absurd h (by simp)
  | some t =>
    rw [hp] at h
    simp only [Option.map_some', Option.some.injEq, Prod.mk.injEq] at h
    obtain ⟨-, hlon, -⟩ := h
    have hb := pymod_bounds (pyDegrees (atan2 (sv.Y : ℝ) (sv.X : ℝ)) -
        (((t.hour : ℝ) - 12) + (t.minute : ℝ) / 60) * (360 / 24) + 19 + 180)
        (show (0 : ℝ) < 360 by norm_num)
    exact ⟨by rw [← hlon]; linarith [hb.1], by rw [← hlon]; linarith [hb.2]⟩

/-- Witness for the amended C2 at the `(-1, 0, 0)` vector, whose longitude
is exactly `-180`. -/
theorem longitude_range_witness : -180 ≤ (-180 : ℝ) ∧ (-180 : ℝ) < 180 :=
  longitude_range ⟨"2024-02-22T13:16:00".data, -1, 0, 0, 0, 0, 0⟩
    0 (-180) (-6370) calculate_location_neg_x

/-- C8 (confirmed): `calculate_location` computes exactly the spec's
formulas — latitude `degrees(atan2(z, sqrt(x² + y²)))`, pre-normalization
longitude `degrees(atan2(y, x)) − ((hour − 12) + minute/60) × (360/24) + 19`
from the vector's own epoch hour and minute, altitude
`sqrt(x² + y² + z²) − 6371.0` — and the latitude is `90` for
`x = 0, y = 0, z > 0` and `0` for `z = 0`. -/
theorem calculate_location_formulas (sv : StateVector) (t : PyDateTime)
    (hp : fromisoformat sv.EPOCH = some t) :
    calculate_location sv = some
      (specLatitude (sv.X : ℝ) (sv.Y : ℝ) (sv.Z : ℝ),
       pymod (specRawLongitude (sv.X : ℝ) (sv.Y : ℝ) t.hour t.minute + 180)
          360 - 180,
       specAltitude (sv.X : ℝ) (sv.Y : ℝ) (sv.Z : ℝ)) ∧
    ((sv.X : ℝ) = 0 → (sv.Y : ℝ) = 0 → 0 < (sv.Z : ℝ) →
      specLatitude (sv.X : ℝ) (sv.Y : ℝ) (sv.Z : ℝ) = 90) ∧
    ((sv.Z : ℝ) = 0 → specLatitude (sv.X : ℝ) (sv.Y : ℝ) (sv.Z : ℝ) = 0) := by
  refine ⟨?_, ?_, ?_⟩
  · unfold calculate_location
    rw [hp]
    rfl
  · intro hx hy hz
    unfold specLatitude
    rw [hx, hy, show ((0 : ℝ) ^ 2 + (0 : ℝ) ^ 2) = 0 by norm_num,
      Real.sqrt_zero, atan2_pos_zero hz, pyDegrees_pi_div_two]
  · intro hz
    unfold specLatitude
    rw [hz, atan2_zero_nonneg (Real.sqrt_nonneg _), pyDegrees_zero]

/-- Witness for C8 at the vector `(0, 0, 1000)` with epoch
`2024-02-22T12:00:00` (latitude 90 case). -/
theorem calculate_location_formulas_witness :
    calculate_location ⟨"2024-02-22T12:00:00".data, 0, 0, 1000, 0, 0, 0⟩ =
      some
        (specLatitude ((0 : ℚ) : ℝ) ((0 : ℚ) : ℝ) ((1000 : ℚ) : ℝ),
         pymod (specRawLongitude ((0 : ℚ) : ℝ) ((0 : ℚ) : ℝ) 12 0 + 180)
            360 - 180,
         specAltitude ((0 : ℚ) : ℝ) ((0 : ℚ) : ℝ) ((1000 : ℚ) : ℝ)) ∧
    (((0 : ℚ) : ℝ) = 0 → ((0 : ℚ) : ℝ) = 0 → 0 < ((1000 : ℚ) : ℝ) →
      specLatitude ((0 : ℚ) : ℝ) ((0 : ℚ) : ℝ) ((1000 : ℚ) : ℝ) = 90) ∧
    (((1000 : ℚ) : ℝ) = 0 →
      specLatitude ((0 : ℚ) : ℝ) ((0 : ℚ) : ℝ) ((1000 : ℚ) : ℝ) = 0) :=
  calculate_location_formulas ⟨"2024-02-22T12:00:00".data, 0, 0, 1000, 0, 0, 0⟩
    ⟨2024, 2, 22, 12, 0, 0, 0⟩ (by decide)

/-- C9 (confirmed): `calculate_speed` is the Euclidean norm of the velocity
vector — it is the nonnegative real whose square is
`x_dot² + y_dot² + z_dot²` — and `calculate_speed 4 3 0 = 5` exactly. -/
theorem calculate_speed_norm :
    (∀ x y z : ℝ, 0 ≤ calculate_speed x y z ∧
      calculate_speed x y z ^ 2 = x ^ 2 + y ^ 2 + z ^ 2) ∧
    calculate_speed 4 3 0 = 5 := by
  constructor
  · intro x y z
    exact ⟨Real.sqrt_nonneg _, Real.sq_sqrt (by positivity)⟩
  · unfold calculate_speed
    rw [show ((4 : ℝ) ^ 2 + 3 ^ 2 + 0 ^ 2) = 5 ^ 2 by norm_num,
      Real.sqrt_sq (by norm_num)]
